import Mathlib

/-!
Verification of `src/frontend/src/config/builtin-tools.ts`.

The file declares a constant registry `BUILTIN_TOOLS` of tool descriptors
and derives `BUILTIN_TOOL_BREADCRUMBS`, a map from each descriptor's
`href` to its `name`, via `Object.fromEntries(BUILTIN_TOOLS.map(t => [t.href, t.name]))`.

We embed JavaScript objects as association lists with no duplicate keys.
`Object.fromEntries` iterates the pairs in order and assigns each key,
overwriting the value when the key is already present (last write wins)
while keeping the key position of the first write, exactly as JavaScript
property assignment does.
-/

/-- icons imported from lucide-vue-next and used by the registry. -/
inductive LucideIcon where
  | Mail
  | Shield
  | AlertTriangle
deriving DecidableEq, Repr

/-- interface BuiltinTool of builtin-tools.ts. -/
structure BuiltinTool where
  name : String
  description : String
  href : String
  icon : LucideIcon
deriving DecidableEq, Repr

/-- one JavaScript property assignment obj[k] = v: overwrite the value in
place when the key exists, append the pair otherwise. -/
def upsert (m : List (String × String)) (k v : String) : List (String × String) :=
  if k ∈ m.map Prod.fst then
    m.map (fun p => if p.1 = k then (k, v) else p)
  else
    m ++ [(k, v)]

/-- Object.fromEntries: assign each (key, value) pair in iteration order
into an initially empty object. -/
def fromEntries (l : List (String × String)) : List (String × String) :=
  l.foldl (fun m p => upsert m p.1 p.2) []

/-- the (href, name) pairs produced by BUILTIN_TOOLS.map(t => [t.href, t.name])
for an arbitrary registry. -/
def toolEntries (reg : List BuiltinTool) : List (String × String) :=
  reg.map (fun t => (t.href, t.name))

/-- the breadcrumb index derivation applied to an arbitrary registry. -/
def breadcrumbIndex (reg : List BuiltinTool) : List (String × String) :=
  fromEntries (toolEntries reg)

/-- export const BUILTIN_TOOLS of builtin-tools.ts, in declaration order. -/
def BUILTIN_TOOLS : List BuiltinTool :=
  [ { name := "邮件配置"
    , description := "配置 SMTP 邮件服务，管理邮件模板和发送设置"
    , href := "/admin/email"
    , icon := LucideIcon.Mail }
  , { name := "IP 安全"
    , description := "管理 IP 黑白名单，控制系统访问权限"
    , href := "/admin/ip-security"
    , icon := LucideIcon.Shield }
  , { name := "审计日志"
    , description := "查看系统操作日志，追踪安全事件与变更记录"
    , href := "/admin/audit-logs"
    , icon := LucideIcon.AlertTriangle } ]

/-- export const BUILTIN_TOOL_BREADCRUMBS of builtin-tools.ts. -/
def BUILTIN_TOOL_BREADCRUMBS : List (String × String) :=
  fromEntries (BUILTIN_TOOLS.map (fun t => (t.href, t.name)))

/-- the last descriptor of a registry whose href equals the given path. -/
def lastWithHref (reg : List BuiltinTool) (path : String) : Option BuiltinTool :=
  reg.reverse.find? (fun t => t.href == path)

/-- updating the value stored at a key never changes the key sequence. -/
theorem map_fst_overwrite (m : List (String × String)) (k v : String) :
    (m.map (fun p => if p.1 = k then (k, v) else p)).map Prod.fst = m.map Prod.fst := by
  rw [List.map_map]
  apply List.map_congr_left
  intro p _
  by_cases hp : p.1 = k
  · simp [hp]
  · simp [hp]

/-- the key sequence after an assignment: unchanged when the key was
present, extended by the key otherwise. -/
theorem keys_upsert (m : List (String × String)) (k v : String) :
    (upsert m k v).map Prod.fst =
      if k ∈ m.map Prod.fst then m.map Prod.fst else m.map Prod.fst ++ [k] := by
  unfold upsert
  by_cases h : k ∈ m.map Prod.fst
  · simp only [h, if_true]
    exact map_fst_overwrite m k v
  · simp [h]

/-- folding assignments preserves distinctness of the keys. -/
theorem keys_nodup_foldl (l : List (String × String)) :
    ∀ acc : List (String × String), (acc.map Prod.fst).Nodup →
      ((l.foldl (fun m p => upsert m p.1 p.2) acc).map Prod.fst).Nodup := by
  induction l with
  | nil => intro acc hacc; exact hacc
  | cons p l ih =>
    intro acc hacc
    rw [List.foldl_cons]
    apply ih
    rw [keys_upsert]
    by_cases h : p.1 ∈ acc.map Prod.fst
    · simpa [h] using hacc
    · simp only [h, if_false]
      simp [List.nodup_append, hacc, h]

/-- a key occurs after the fold iff it occurs in the accumulator or among
the keys of the remaining pairs. -/
theorem mem_keys_foldl (l : List (String × String)) :
    ∀ (acc : List (String × String)) (k : String),
      (k ∈ (l.foldl (fun m p => upsert m p.1 p.2) acc).map Prod.fst ↔
        k ∈ acc.map Prod.fst ∨ k ∈ l.map Prod.fst) := by
  induction l with
  | nil => intro acc k; simp
  | cons p l ih =>
    intro acc k
    rw [List.foldl_cons, ih]
    rw [keys_upsert]
    by_cases h : p.1 ∈ acc.map Prod.fst
    · simp only [h, if_true, List.map_cons, List.mem_cons]
      constructor
      · tauto
      · rintro (hk | hk | hk)
        · exact Or.inl hk
        · exact Or.inl (hk ▸ h)
        · exact Or.inr hk
    · simp only [h, if_false, List.mem_append, List.mem_singleton,
        List.map_cons, List.mem_cons]
      tauto

/-- the keys of fromEntries are distinct. -/
theorem keys_fromEntries_nodup (l : List (String × String)) :
    ((fromEntries l).map Prod.fst).Nodup :=
  keys_nodup_foldl l [] (by simp)

/-- a key occurs in fromEntries iff it occurs among the input keys. -/
theorem mem_keys_fromEntries (l : List (String × String)) (k : String) :
    k ∈ (fromEntries l).map Prod.fst ↔ k ∈ l.map Prod.fst := by
  have h := mem_keys_foldl l [] k
  simpa [fromEntries] using h

/-- the number of entries of fromEntries is the number of distinct input
keys. -/
theorem length_fromEntries (l : List (String × String)) :
    (fromEntries l).length = (l.map Prod.fst).toFinset.card := by
  have hnodup := keys_fromEntries_nodup l
  have hset : ((fromEntries l).map Prod.fst).toFinset = (l.map Prod.fst).toFinset := by
    ext k
    simp only [List.mem_toFinset]
    exact mem_keys_fromEntries l k
  calc (fromEntries l).length
      = ((fromEntries l).map Prod.fst).length := (List.length_map _ _).symm
    _ = ((fromEntries l).map Prod.fst).toFinset.card :=
        (List.toFinset_card_of_nodup hnodup).symm
    _ = (l.map Prod.fst).toFinset.card := by rw [hset]

/-- the distinct-element count of a list equals its length iff the list
has no duplicates. -/
theorem toFinset_card_eq_length_iff (l : List String) :
    l.toFinset.card = l.length ↔ l.Nodup := by
  constructor
  · intro h
    rw [List.card_toFinset] at h
    have hsub := List.dedup_sublist l
    have := hsub.eq_of_length h
    exact List.dedup_eq_self.mp this
  · intro h
    exact List.toFinset_card_of_nodup h

/-- C3: for every registry, the derived breadcrumb index has at most as
many entries as the registry has descriptors, with equality iff the
descriptor paths are pairwise distinct. -/
theorem c3_index_size (reg : List BuiltinTool) :
    (breadcrumbIndex reg).length ≤ reg.length ∧
      ((breadcrumbIndex reg).length = reg.length ↔
        (reg.map (fun t => t.href)).Nodup) := by
  have hkeys : (toolEntries reg).map Prod.fst = reg.map (fun t => t.href) := by
    simp [toolEntries, List.map_map, Function.comp]
  have hlen : (breadcrumbIndex reg).length =
      (reg.map (fun t => t.href)).toFinset.card := by
    rw [breadcrumbIndex, length_fromEntries, hkeys]
  constructor
  · rw [hlen]
    calc (reg.map (fun t => t.href)).toFinset.card
        ≤ (reg.map (fun t => t.href)).length := List.toFinset_card_le _
      _ = reg.length := List.length_map _ _
  · rw [hlen]
    rw [show reg.length = (reg.map (fun t => t.href)).length from
      (List.length_map _ _).symm]
    exact toFinset_card_eq_length_iff _

/-- C1: for every descriptor d in BUILTIN_TOOLS, looking up d.href in
BUILTIN_TOOL_BREADCRUMBS yields the name of the last descriptor in
iteration order whose href equals d.href. -/
theorem c1_lookup_yields_last_name :
    ∀ d ∈ BUILTIN_TOOLS,
      BUILTIN_TOOL_BREADCRUMBS.lookup d.href =
        (lastWithHref BUILTIN_TOOLS d.href).map (fun t => t.name) := by
  decide

/-- witness for C1 at the first descriptor of the registry. -/
theorem c1_lookup_yields_last_name_witness :
    BUILTIN_TOOL_BREADCRUMBS.lookup
        ({ name := "邮件配置"
         , description := "配置 SMTP 邮件服务，管理邮件模板和发送设置"
         , href := "/admin/email"
         , icon := LucideIcon.Mail } : BuiltinTool).href =
      (lastWithHref BUILTIN_TOOLS
        ({ name := "邮件配置"
         , description := "配置 SMTP 邮件服务，管理邮件模板和发送设置"
         , href := "/admin/email"
         , icon := LucideIcon.Mail } : BuiltinTool).href).map (fun t => t.name) :=
  c1_lookup_yields_last_name _ (by decide)

/-- C5: applied to the empty registry, the index derivation returns the
empty mapping (and, being a total function, cannot fail). -/
theorem c5_empty_registry : breadcrumbIndex [] = [] := by
  rfl

/-- C6: on the concrete three-descriptor registry the derived map is
exactly the three expected entries. -/
theorem c6_concrete_breadcrumbs :
    BUILTIN_TOOL_BREADCRUMBS =
      [ ("/admin/email", "邮件配置")
      , ("/admin/ip-security", "IP 安全")
      , ("/admin/audit-logs", "审计日志") ] := by
  decide

/-- C7: no two distinct descriptors of BUILTIN_TOOLS share an href. -/
theorem c7_hrefs_unique : (BUILTIN_TOOLS.map (fun t => t.href)).Nodup := by
  decide

/-- C2: the key set of BUILTIN_TOOL_BREADCRUMBS is exactly the set of
href values of the descriptors: each descriptor contributes an entry
keyed by its href, and every key is some descriptor's href. -/
theorem c2_keys_are_hrefs :
    (∀ d ∈ BUILTIN_TOOLS, d.href ∈ BUILTIN_TOOL_BREADCRUMBS.map Prod.fst) ∧
      (∀ k : String, k ∈ BUILTIN_TOOL_BREADCRUMBS.map Prod.fst →
        k ∈ BUILTIN_TOOLS.map (fun t => t.href)) := by
  have hkeys : BUILTIN_TOOL_BREADCRUMBS.map Prod.fst =
      BUILTIN_TOOLS.map (fun t => t.href) := by decide
  constructor
  · intro d hd
    rw [hkeys]
    exact List.mem_map.mpr ⟨d, hd, rfl⟩
  · intro k hk
    rw [hkeys] at hk
    exact hk

/-- witness for C2 at the first descriptor and at its key. -/
theorem c2_keys_are_hrefs_witness :
    ({ name := "邮件配置"
     , description := "配置 SMTP 邮件服务，管理邮件模板和发送设置"
     , href := "/admin/email"
     , icon := LucideIcon.Mail } : BuiltinTool).href ∈
      BUILTIN_TOOL_BREADCRUMBS.map Prod.fst ∧
    ("/admin/email" : String) ∈ BUILTIN_TOOLS.map (fun t => t.href) :=
  ⟨c2_keys_are_hrefs.1 _ (by decide), c2_keys_are_hrefs.2 ("/admin/email") (by decide)⟩

/-- witness for C3 at the concrete registry of the source. -/
theorem c3_index_size_witness :
    (breadcrumbIndex BUILTIN_TOOLS).length ≤ BUILTIN_TOOLS.length ∧
      ((breadcrumbIndex BUILTIN_TOOLS).length = BUILTIN_TOOLS.length ↔
        (BUILTIN_TOOLS.map (fun t => t.href)).Nodup) :=
  c3_index_size BUILTIN_TOOLS

/-- C4: on a registry with two descriptors sharing the path "/x", the
derivation silently resolves the duplicate last-write-wins, producing
exactly the single entry ("/x", "B"); being a total function it raises no
error. -/
theorem c4_duplicate_last_write_wins :
    breadcrumbIndex
      [ { name := "A", description := "", href := "/x", icon := LucideIcon.Mail }
      , { name := "B", description := "", href := "/x", icon := LucideIcon.Mail } ] =
      [("/x", "B")] := by
  decide

/-- C8: the registry is the fixed literal list of the source, so its
iteration order matches declaration order (邮件配置, IP 安全, 审计日志);
as a constant of a pure embedding any two reads of it are the same list. -/
theorem c8_declaration_order :
    BUILTIN_TOOLS.map (fun t => t.name) = ["邮件配置", "IP 安全", "审计日志"] ∧
      BUILTIN_TOOLS.map (fun t => t.href) =
        ["/admin/email", "/admin/ip-security", "/admin/audit-logs"] := by
  decide

/-- C9: every descriptor href starts with "/admin/", hence so does every
key of BUILTIN_TOOL_BREADCRUMBS. -/
theorem c9_admin_keys :
    (∀ d ∈ BUILTIN_TOOLS, ("/admin/").data.isPrefixOf d.href.data = true) ∧
      (∀ p ∈ BUILTIN_TOOL_BREADCRUMBS, ("/admin/").data.isPrefixOf p.1.data = true) := by
  decide

/-- C10: the descriptor names are pairwise distinct and non-empty, so the
breadcrumb mapping is injective: distinct keys carry distinct values. -/
theorem c10_names_distinct_injective :
    (BUILTIN_TOOLS.map (fun t => t.name)).Nodup ∧
      (∀ d ∈ BUILTIN_TOOLS, d.name ≠ "") ∧
      (∀ p ∈ BUILTIN_TOOL_BREADCRUMBS, ∀ q ∈ BUILTIN_TOOL_BREADCRUMBS,
        p.1 ≠ q.1 → p.2 ≠ q.2) := by
  decide

/-- witness for C9 at the first descriptor and the first breadcrumb entry. -/
theorem c9_admin_keys_witness :
    ("/admin/").data.isPrefixOf
        ({ name := "邮件配置"
         , description := "配置 SMTP 邮件服务，管理邮件模板和发送设置"
         , href := "/admin/email"
         , icon := LucideIcon.Mail } : BuiltinTool).href.data = true ∧
      ("/admin/").data.isPrefixOf
        (("/admin/email", "邮件配置") : String × String).1.data = true :=
  ⟨c9_admin_keys.1 _ (by decide), c9_admin_keys.2 _ (by decide)⟩

/-- witness for C10 at the first two breadcrumb entries. -/
theorem c10_names_distinct_injective_witness :
    (("/admin/email", "邮件配置") : String × String).2 ≠
      (("/admin/ip-security", "IP 安全") : String × String).2 :=
  c10_names_distinct_injective.2.2 _ (by decide) _ (by decide) (by decide)
